import Mathlib

/-!
Verification of the direct-collocation `Problem` engine used by the opty
example scripts (`park2004.py`, `examples-gallery/advanced/plot_park2004.py`,
`examples-gallery/intermediate/plot_countersteer.py`).

The repository sources contain only the example scripts, which are callers of
the engine; the engine itself (symbol classification, free-vector layout,
discretization, constraint assembly, NLP backend driver, solution parser) is
modelled from the specification, as recorded in the doc comments below.
Script-level facts (initial-guess construction, objective gradient, slicing of
the solution vector, assignment sequences) are embedded directly from the
scripts.
-/

namespace Opty

/-- Modelled from the spec: the free-vector layout data of a constructed
`Problem` (§3 of the spec).  The engine code defining it is not in the
repository sources.  `numNodes` is N, `intervalFree` records whether the node
interval h is itself an optimization unknown. -/
structure Layout where
  numStates : Nat
  numUnknownSpec : Nat
  numFreeParams : Nat
  numNodes : Nat
  intervalFree : Bool
deriving DecidableEq

/-- Modelled from the spec: length invariant of the flat free vector,
`(num_states + num_unknown_specified) * N + num_free_parameters + (1 if the
node interval is free else 0)`.  Matches `prob.num_free` used by the
countersteer script. -/
def Layout.num_free (L : Layout) : Nat :=
  (L.numStates + L.numUnknownSpec) * L.numNodes + L.numFreeParams +
    (if L.intervalFree then 1 else 0)

/-- The layout of the park2004 identification problem: 4 states, no unknown
specified trajectories, 8 free gain parameters, fixed node interval. -/
def park2004Layout (N : Nat) : Layout :=
  { numStates := 4, numUnknownSpec := 0, numFreeParams := 8,
    numNodes := N, intervalFree := false }

/-- The layout of the countersteer problem: 6 states, 1 unknown specified
trajectory (`deltadot`), no free parameters, free node interval `dt`. -/
def countersteerLayout (N : Nat) : Layout :=
  { numStates := 6, numUnknownSpec := 1, numFreeParams := 0,
    numNodes := N, intervalFree := true }

/-- Modelled from the spec: `build` of §4.3 concatenates the per-state
trajectories (each a contiguous block of N values, in declared state order),
then the unknown specified trajectories, then the free parameters, then the
free node interval when present.  This ordering is the one the scripts rely
on (`free[:4*num_nodes]`, `solution[-8:]`, `free[-1]`). -/
def build (states uspec : List (List ℚ)) (params : List ℚ)
    (interval : Option ℚ) : List ℚ :=
  states.flatten ++ uspec.flatten ++ params ++ interval.toList

/-- Split a flat list into `k` consecutive chunks of `n` elements each. -/
def chunks (n : Nat) : Nat → List ℚ → List (List ℚ)
  | 0, _ => []
  | k + 1, xs => xs.take n :: chunks n k (xs.drop n)

/-- The result of parsing a flat solution vector: state trajectories, unknown
specified trajectories, free parameters, and the node interval when it was a
free variable. -/
structure Parsed where
  states : List (List ℚ)
  uspec : List (List ℚ)
  params : List ℚ
  interval : Option ℚ
deriving DecidableEq

/-- The tail of the flat vector after the state-trajectory blocks. -/
def rest1 (L : Layout) (free : List ℚ) : List ℚ :=
  free.drop (L.numStates * L.numNodes)

/-- The tail of the flat vector after the unknown-specified blocks. -/
def rest2 (L : Layout) (free : List ℚ) : List ℚ :=
  (rest1 L free).drop (L.numUnknownSpec * L.numNodes)

/-- Modelled from the spec: the solution parser `parse_free` of §4.7, the
exact inverse of `build`.  Reads the state blocks, then the unknown specified
blocks, then the free parameters, and finally the interval scalar exactly when
the layout has a free interval. -/
def parse_free (L : Layout) (free : List ℚ) : Parsed :=
  { states := chunks L.numNodes L.numStates free
    uspec := chunks L.numNodes L.numUnknownSpec (rest1 L free)
    params := (rest2 L free).take L.numFreeParams
    interval := if L.intervalFree then
        ((rest2 L free).drop L.numFreeParams).head?
      else none }

/-- Valid inputs for `build` against a layout: the declared numbers of
trajectories, each of length N, the declared number of parameters, and an
interval value exactly when the layout's interval is free. -/
abbrev ValidInput (L : Layout) (states uspec : List (List ℚ)) (params : List ℚ)
    (interval : Option ℚ) : Prop :=
  states.length = L.numStates ∧ (∀ s ∈ states, s.length = L.numNodes) ∧
  uspec.length = L.numUnknownSpec ∧ (∀ s ∈ uspec, s.length = L.numNodes) ∧
  params.length = L.numFreeParams ∧
  interval.isSome = L.intervalFree

/-- Pointwise addition of two equally long numeric vectors. -/
def vadd (a b : List ℚ) : List ℚ := List.zipWith (· + ·) a b

/-- Pointwise subtraction of two equally long numeric vectors. -/
def vsub (a b : List ℚ) : List ℚ := List.zipWith (· - ·) a b

/-- Scalar multiple of a numeric vector. -/
def smul (c : ℚ) (v : List ℚ) : List ℚ := v.map (fun x => c * x)

/-- Modelled from the spec: the two interchangeable collocation policies of
§4.2.  The engine code is not in the repository sources. -/
inductive IntegrationMethod where
  | backwardEuler
  | midpoint
deriving DecidableEq

/-- Modelled from the spec: the point at which each collocation policy
evaluates the dynamics f over the node pair (i, i+1): backward Euler at the
right endpoint, midpoint at the averaged state/input/time. -/
def schemeRHS (m : IntegrationMethod)
    (f : List ℚ → List ℚ → List ℚ → ℚ → List ℚ) (p : List ℚ)
    (x r : Nat → List ℚ) (t : Nat → ℚ) (i : Nat) : List ℚ :=
  match m with
  | .backwardEuler => f (x (i + 1)) (r (i + 1)) p (t (i + 1))
  | .midpoint =>
      f (smul (1 / 2) (vadd (x i) (x (i + 1))))
        (smul (1 / 2) (vadd (r i) (r (i + 1)))) p ((t i + t (i + 1)) / 2)

/-- Modelled from the spec: the defect equation of the node pair (i, i+1),
`x_{i+1} - x_i - h * f(...)`. -/
def defectAt (m : IntegrationMethod)
    (f : List ℚ → List ℚ → List ℚ → ℚ → List ℚ) (hstep : ℚ) (p : List ℚ)
    (x r : Nat → List ℚ) (t : Nat → ℚ) (i : Nat) : List ℚ :=
  vsub (vsub (x (i + 1)) (x i)) (smul hstep (schemeRHS m f p x r t i))

/-- Modelled from the spec: the defect constraint vector, one vector-valued
defect equation per consecutive node pair (§4.2). -/
def defectVector (m : IntegrationMethod)
    (f : List ℚ → List ℚ → List ℚ → ℚ → List ℚ) (hstep : ℚ) (p : List ℚ)
    (x r : Nat → List ℚ) (t : Nat → ℚ) (N : Nat) : List (List ℚ) :=
  (List.range (N - 1)).map (defectAt m f hstep p x r t)

/-- Modelled from the spec: the data of a constructed `Problem` needed by the
claims — layout, objective, gradient, explicit dynamics, node interval, and
integration method.  The engine code is not in the repository sources. -/
structure Problem where
  layout : Layout
  obj : List ℚ → ℚ
  obj_grad : List ℚ → List ℚ
  eom : List ℚ → List ℚ → List ℚ → ℚ → List ℚ
  hstep : ℚ
  integrationMethod : IntegrationMethod

/-- Modelled from the spec: `Problem` construction; when the caller does not
pass an `integration_method` the midpoint scheme is the default (§4.2). -/
def mkProblem (obj : List ℚ → ℚ) (grad : List ℚ → List ℚ)
    (eom : List ℚ → List ℚ → List ℚ → ℚ → List ℚ) (L : Layout) (hstep : ℚ)
    (m : IntegrationMethod := .midpoint) : Problem :=
  ⟨L, obj, grad, eom, hstep, m⟩

/-- The defect constraints a constructed problem enforces, given free
parameters, state trajectories, specified trajectories and node times. -/
def Problem.defects (P : Problem) (p : List ℚ) (x r : Nat → List ℚ)
    (t : Nat → ℚ) : List (List ℚ) :=
  defectVector P.integrationMethod P.eom P.hstep p x r t P.layout.numNodes

/-- Modelled from the spec: a trajectory satisfies the discretized dynamics
when every consecutive node pair obeys the collocation update equation. -/
def FeasibleTraj (m : IntegrationMethod)
    (f : List ℚ → List ℚ → List ℚ → ℚ → List ℚ) (hstep : ℚ) (p : List ℚ)
    (x r : Nat → List ℚ) (t : Nat → ℚ) (N : Nat) : Prop :=
  ∀ i, i + 1 < N → x (i + 1) = vadd (x i) (smul hstep (schemeRHS m f p x r t i))

/-- Symbolic expressions appearing in defect and instance constraints, with a
variable for each classified symbol occurrence: a state at a node, an unknown
specified trajectory at a node, a known trajectory at a node, a free
parameter, or the free node interval. -/
inductive Expr where
  | const : ℚ → Expr
  | stateVar : Nat → Nat → Expr
  | unknownSpecVar : Nat → Nat → Expr
  | knownTrajVar : Nat → Nat → Expr
  | paramVar : Nat → Expr
  | intervalVar : Expr
  | add : Expr → Expr → Expr
  | mul : Expr → Expr → Expr
  | neg : Expr → Expr
deriving DecidableEq

/-- Position of state `s` at node `node` in the flat free vector. -/
def Layout.stateIdx (L : Layout) (s node : Nat) : Nat := s * L.numNodes + node

/-- Position of unknown specified trajectory `u` at node `node`. -/
def Layout.uspecIdx (L : Layout) (u node : Nat) : Nat :=
  L.numStates * L.numNodes + u * L.numNodes + node

/-- Position of free parameter `j` in the flat free vector. -/
def Layout.paramIdx (L : Layout) (j : Nat) : Nat :=
  (L.numStates + L.numUnknownSpec) * L.numNodes + j

/-- Position of the free node interval in the flat free vector. -/
def Layout.intervalIdx (L : Layout) : Nat :=
  (L.numStates + L.numUnknownSpec) * L.numNodes + L.numFreeParams

/-- Modelled from the spec: evaluation of a constraint expression.  States,
unknown specified trajectories, free parameters and the free interval are read
out of the flat free vector; known-trajectory values are read from the
externally supplied per-node map `known`, never from the free vector. -/
def Expr.eval (L : Layout) (free : List ℚ) (known : Nat → Nat → ℚ) :
    Expr → ℚ
  | .const c => c
  | .stateVar s n => free.getD (L.stateIdx s n) 0
  | .unknownSpecVar u n => free.getD (L.uspecIdx u n) 0
  | .knownTrajVar k n => known k n
  | .paramVar j => free.getD (L.paramIdx j) 0
  | .intervalVar => free.getD L.intervalIdx 0
  | .add a b => a.eval L free known + b.eval L free known
  | .mul a b => a.eval L free known * b.eval L free known
  | .neg a => -(a.eval L free known)

/-- Modelled from the spec: substitution of the known-trajectory per-node
values as numeric constants into a constraint expression (§4.4). -/
def substKnown (known : Nat → Nat → ℚ) : Expr → Expr
  | .knownTrajVar k n => .const (known k n)
  | .add a b => .add (substKnown known a) (substKnown known b)
  | .mul a b => .mul (substKnown known a) (substKnown known b)
  | .neg a => .neg (substKnown known a)
  | e => e

/-- Whether an expression still mentions any known-trajectory symbol. -/
def hasKnownTraj : Expr → Bool
  | .knownTrajVar _ _ => true
  | .add a b => hasKnownTraj a || hasKnownTraj b
  | .mul a b => hasKnownTraj a || hasKnownTraj b
  | .neg a => hasKnownTraj a
  | _ => false

/-- Modelled from the spec: the construction-time error taxonomy entry for a
gradient whose output length differs from the free-vector length (§4.5, §7). -/
inductive ConfigurationError where
  | gradientLengthMismatch
deriving DecidableEq

/-- Modelled from the spec: validated `Problem` construction.  The
caller-supplied gradient is probed on a free-length vector; a length mismatch
is a `ConfigurationError` raised at construction, before any solve. -/
def mkProblemChecked (obj : List ℚ → ℚ) (grad : List ℚ → List ℚ)
    (eom : List ℚ → List ℚ → List ℚ → ℚ → List ℚ) (L : Layout) (hstep : ℚ)
    (m : IntegrationMethod) : Except ConfigurationError Problem :=
  if (grad (List.replicate L.num_free 0)).length = L.num_free then
    Except.ok (mkProblem obj grad eom L hstep m)
  else
    Except.error ConfigurationError.gradientLengthMismatch

/-- The gradient of the park2004 example scripts:
`grad = np.zeros_like(free); grad[:4*num_nodes] =
2.0*interval*(free[:4*num_nodes] - x_meas_vec)`. -/
def obj_grad (interval : ℚ) (num_nodes : Nat) (x_meas_vec : List ℚ)
    (free : List ℚ) : List ℚ :=
  (List.zipWith (fun fi mi => 2 * interval * (fi - mi))
      (free.take (4 * num_nodes)) x_meas_vec) ++
    List.replicate (free.length - 4 * num_nodes) 0

/-- Modelled from the spec: termination statuses of the NLP backend (§4.6). -/
inductive SolverStatus where
  | converged
  | iterationLimit
  | infeasible
  | numericalTrouble
deriving DecidableEq

/-- Modelled from the spec: the diagnostics record returned by the NLP
backend together with the best iterate found (§4.6). -/
structure SolverOutput where
  bestIterate : List ℚ
  status : SolverStatus
  iterations : Nat
  objectiveValue : ℚ
  constraintViolation : ℚ
  objectiveTrace : List ℚ
deriving DecidableEq

/-- Modelled from the spec: the mid-solve fatal error, raised only when a
NaN/Inf is met during an evaluation (§4.6, §7). -/
inductive NumericalError where
  | nonFiniteEvaluation : Nat → NumericalError
deriving DecidableEq

/-- Modelled from the spec: the external NLP solver as a black box: a run
producing a diagnostics record with the best iterate, plus the iteration at
which a non-finite value was met during evaluation, when any. -/
structure Backend where
  run : List ℚ → SolverOutput
  nonFiniteAt : List ℚ → Option Nat

/-- Modelled from the spec: `Problem.solve`.  A non-finite evaluation aborts
with a `NumericalError`; otherwise the best iterate and the diagnostics
record are returned as ordinary values — solver non-convergence is a status
in the record, not an exception. -/
def Problem.solve (P : Problem) (B : Backend) (guess : List ℚ) :
    Except NumericalError (List ℚ × SolverOutput) :=
  match B.nonFiniteAt guess with
  | some it => Except.error (NumericalError.nonFiniteEvaluation it)
  | none => Except.ok ((B.run guess).bestIterate, B.run guess)

/-- Net parenthesis count of one line of source text: opening parentheses
minus closing parentheses.  A line of Python whose net count over the whole
logical line is not zero cannot be syntactically balanced. -/
def parenDelta (c : Char) : Int :=
  if c = '(' then 1 else if c = ')' then -1 else 0

/-- Sum of `parenDelta` over a list of characters. -/
def parenNet (s : List Char) : Int := (s.map parenDelta).sum

/-- Line 621 of `src/park2004.py`, embedded verbatim: the second of the three
consecutive `initial_guess` assignments. -/
def park2004Line621 : String :=
  "    initial_guess = np.hstack((x_meas_vec), 1000.0 * np.random.random(8)))"

/-- Sequential Python assignments to one variable: each assignment overwrites
the previous value; the final read observes only the last assignment. -/
def runAssignments (acc : Option (List ℚ)) : List (List ℚ) → Option (List ℚ)
  | [] => acc
  | v :: rest => runAssignments (some v) rest

lemma flatten_length (ls : List (List ℚ)) (n : Nat)
    (h : ∀ s ∈ ls, s.length = n) : ls.flatten.length = ls.length * n := by
  induction ls with
  | nil => simp
  | cons s rest ih =>
    simp only [List.flatten_cons, List.length_append, List.length_cons]
    rw [h s (by simp), ih (fun x hx => h x (by simp [hx])), Nat.succ_mul,
      Nat.add_comm]

lemma chunks_length (n k : Nat) (xs : List ℚ) : (chunks n k xs).length = k := by
  induction k generalizing xs with
  | zero => rfl
  | succ k ih => simp [chunks, ih]

lemma chunks_mem_length (n k : Nat) (xs : List ℚ) (h : n * k ≤ xs.length) :
    ∀ s ∈ chunks n k xs, s.length = n := by
  induction k generalizing xs with
  | zero => intro s hs; simp [chunks] at hs
  | succ k ih =>
    intro s hs
    simp only [chunks, List.mem_cons] at hs
    have hn : n ≤ xs.length := le_trans (Nat.le_mul_of_pos_right n k.succ_pos) h
    rcases hs with hs | hs
    · simp [hs, Nat.min_eq_left hn]
    · refine ih (xs.drop n) ?_ s hs
      rw [List.length_drop]
      rw [Nat.mul_succ] at h
      omega

lemma chunks_flatten_append (n : Nat) (ls : List (List ℚ)) (rest : List ℚ)
    (h : ∀ s ∈ ls, s.length = n) :
    chunks n ls.length (ls.flatten ++ rest) = ls := by
  induction ls generalizing rest with
  | nil => rfl
  | cons s tail ih =>
    have hs : s.length = n := h s (by simp)
    simp only [List.length_cons, chunks, List.flatten_cons, List.append_assoc]
    rw [← hs, List.take_left, List.drop_left, hs,
      ih rest (fun x hx => h x (by simp [hx]))]

lemma drop_flatten_append (n : Nat) (ls : List (List ℚ)) (rest : List ℚ)
    (h : ∀ s ∈ ls, s.length = n) :
    (ls.flatten ++ rest).drop (ls.length * n) = rest := by
  rw [← flatten_length ls n h, List.drop_left]

lemma build_eq_append (s u : List (List ℚ)) (p : List ℚ) (i : Option ℚ) :
    build s u p i = s.flatten ++ (u.flatten ++ (p ++ i.toList)) := by
  simp [build]

lemma rest1_build (L : Layout) (s u : List (List ℚ)) (p : List ℚ)
    (i : Option ℚ) (h1 : s.length = L.numStates)
    (h2 : ∀ x ∈ s, x.length = L.numNodes) :
    rest1 L (build s u p i) = u.flatten ++ (p ++ i.toList) := by
  rw [rest1, build_eq_append, ← h1]
  exact drop_flatten_append L.numNodes s _ h2

lemma rest2_build (L : Layout) (s u : List (List ℚ)) (p : List ℚ)
    (i : Option ℚ) (h1 : s.length = L.numStates)
    (h2 : ∀ x ∈ s, x.length = L.numNodes) (h3 : u.length = L.numUnknownSpec)
    (h4 : ∀ x ∈ u, x.length = L.numNodes) :
    rest2 L (build s u p i) = p ++ i.toList := by
  rw [rest2, rest1_build L s u p i h1 h2, ← h3]
  exact drop_flatten_append L.numNodes u _ h4

lemma parse_build_eq (L : Layout) (s u : List (List ℚ)) (p : List ℚ)
    (i : Option ℚ) (h : ValidInput L s u p i) :
    parse_free L (build s u p i) = ⟨s, u, p, i⟩ := by
  obtain ⟨h1, h2, h3, h4, h5, h6⟩ := h
  unfold parse_free
  rw [rest1_build L s u p i h1 h2, rest2_build L s u p i h1 h2 h3 h4]
  congr 1
  · rw [build_eq_append, ← h1]
    exact chunks_flatten_append L.numNodes s _ h2
  · rw [← h3]
    exact chunks_flatten_append L.numNodes u _ h4
  · rw [← h5, List.take_left]
  · rw [← h5, List.drop_left]
    cases hif : L.intervalFree with
    | false =>
      rw [hif] at h6
      cases i with
      | none => simp
      | some a => simp at h6
    | true =>
      rw [hif] at h6
      cases i with
      | none => simp at h6
      | some a => simp [Option.toList]

lemma length_vsub (a b : List ℚ) : (vsub a b).length = min a.length b.length :=
  List.length_zipWith _ a b

lemma length_smul (c : ℚ) (v : List ℚ) : (smul c v).length = v.length :=
  List.length_map v _

lemma vsub_self_eq_zero (v : List ℚ) :
    vsub v v = List.replicate v.length 0 := by
  induction v with
  | nil => rfl
  | cons x xs ih =>
    rw [List.length_cons, List.replicate_succ]
    show (x - x) :: vsub xs xs = 0 :: List.replicate xs.length 0
    rw [sub_self, ih]

lemma vsub_vadd_cancel (a : List ℚ) :
    ∀ v : List ℚ, a.length = v.length → vsub (vadd a v) a = v := by
  induction a with
  | nil =>
    intro v h
    simp only [List.length_nil] at h
    rw [eq_comm, List.length_eq_zero] at h
    subst h
    rfl
  | cons x xs ih =>
    intro v h
    cases v with
    | nil => simp at h
    | cons y ys =>
      simp only [vadd, vsub, List.zipWith_cons_cons, List.cons.injEq]
      refine ⟨by ring, ih ys ?_⟩
      simpa using h

lemma length_schemeRHS (m : IntegrationMethod)
    (f : List ℚ → List ℚ → List ℚ → ℚ → List ℚ) (p : List ℚ)
    (x r : Nat → List ℚ) (t : Nat → ℚ) (i ns : Nat)
    (hf : ∀ a b c d, (f a b c d).length = ns) :
    (schemeRHS m f p x r t i).length = ns := by
  cases m <;> simp [schemeRHS, hf]

/-- C1: for every valid problem instance the flat free vector built by the
layout has length `(num_states + num_unknown_specified) * N +
num_free_parameters + (1 if the interval is free else 0)`; in particular the
park2004 layout (4 states, 0 unknown specified, 8 free gains, fixed interval)
has `num_free = 4 * N + 8`, and the park2004 initial guess — measured state
trajectories (4·N values) followed by 8 zero gain guesses — has exactly that
length. -/
theorem free_vector_length (L : Layout) (s u : List (List ℚ)) (p : List ℚ)
    (i : Option ℚ) (mv : List ℚ) (N : Nat)
    (h : ValidInput L s u p i) (hmv : mv.length = 4 * N) :
    (build s u p i).length = L.num_free ∧
    (park2004Layout N).num_free = 4 * N + 8 ∧
    (mv ++ List.replicate 8 (0 : ℚ)).length = (park2004Layout N).num_free := by
  obtain ⟨h1, h2, h3, h4, h5, h6⟩ := h
  have hpark : (park2004Layout N).num_free = 4 * N + 8 := by
    simp [park2004Layout, Layout.num_free]
  refine ⟨?_, hpark, ?_⟩
  · rw [build_eq_append]
    simp only [List.length_append]
    rw [flatten_length s L.numNodes h2, flatten_length u L.numNodes h4, h1, h3,
      h5, Layout.num_free, Nat.add_mul]
    have hi : i.toList.length = if L.intervalFree then 1 else 0 := by
      cases i with
      | none => simp at h6; simp [h6]
      | some a => simp at h6; simp [h6]
    rw [hi]
    ring
  · simp [hpark, hmv]

theorem free_vector_length_witness :
    (build [[1, 2]] [[3, 4]] [5] (some 6)).length =
      (Layout.mk 1 1 1 2 true).num_free ∧
    (park2004Layout 2).num_free = 4 * 2 + 8 ∧
    (([1, 2, 3, 4, 5, 6, 7, 8] : List ℚ) ++ List.replicate 8 (0 : ℚ)).length =
      (park2004Layout 2).num_free :=
  free_vector_length (Layout.mk 1 1 1 2 true) [[1, 2]] [[3, 4]] [5] (some 6)
    [1, 2, 3, 4, 5, 6, 7, 8] 2 (by decide) (by decide)

/-- C2: parsing the flat vector produced by building it returns exactly the
original state trajectories, unknown specified trajectories, free parameters,
and (when present) interval, with exact equality. -/
theorem parse_free_build_roundtrip (L : Layout) (s u : List (List ℚ))
    (p : List ℚ) (i : Option ℚ) (h : ValidInput L s u p i) :
    parse_free L (build s u p i) = ⟨s, u, p, i⟩ :=
  parse_build_eq L s u p i h

theorem parse_free_build_roundtrip_witness :
    parse_free (Layout.mk 1 1 1 2 true) (build [[1, 2]] [[3, 4]] [5] (some 6)) =
      ⟨[[1, 2]], [[3, 4]], [5], some 6⟩ :=
  parse_free_build_roundtrip (Layout.mk 1 1 1 2 true) [[1, 2]] [[3, 4]] [5]
    (some 6) (by decide)

/-- C3: on any flat vector of the layout's length, `parse_free` returns
`num_states` state trajectories of length N each, `num_unknown_specified`
unknown specified trajectories of length N each, a free-parameter list of
length `num_free_parameters`, and an interval scalar exactly when the node
interval is free (so four meaningful return values for the variable-interval
countersteer layout and three for the fixed-interval park2004 layout). -/
theorem parse_free_shapes (L : Layout) (free : List ℚ)
    (h : free.length = L.num_free) :
    (parse_free L free).states.length = L.numStates ∧
    (∀ s ∈ (parse_free L free).states, s.length = L.numNodes) ∧
    (parse_free L free).uspec.length = L.numUnknownSpec ∧
    (∀ s ∈ (parse_free L free).uspec, s.length = L.numNodes) ∧
    (parse_free L free).params.length = L.numFreeParams ∧
    (parse_free L free).interval.isSome = L.intervalFree := by
  rw [Layout.num_free, Nat.add_mul] at h
  have hmul1 : L.numNodes * L.numStates = L.numStates * L.numNodes :=
    Nat.mul_comm L.numNodes L.numStates
  have hmul2 : L.numNodes * L.numUnknownSpec =
      L.numUnknownSpec * L.numNodes :=
    Nat.mul_comm L.numNodes L.numUnknownSpec
  have hs : L.numNodes * L.numStates ≤ free.length := by
    rw [hmul1, h]
    omega
  have hr1 : (rest1 L free).length =
      L.numUnknownSpec * L.numNodes + L.numFreeParams +
        (if L.intervalFree then 1 else 0) := by
    rw [rest1, List.length_drop, h]
    omega
  have hu : L.numNodes * L.numUnknownSpec ≤ (rest1 L free).length := by
    rw [hmul2, hr1]
    omega
  have hr2 : (rest2 L free).length =
      L.numFreeParams + (if L.intervalFree then 1 else 0) := by
    rw [rest2, List.length_drop, hr1]
    omega
  refine ⟨chunks_length _ _ _, chunks_mem_length _ _ _ hs, chunks_length _ _ _,
    chunks_mem_length _ _ _ hu, ?_, ?_⟩
  · show ((rest2 L free).take L.numFreeParams).length = L.numFreeParams
    rw [List.length_take, hr2]
    omega
  · show (if L.intervalFree then
        ((rest2 L free).drop L.numFreeParams).head? else none).isSome =
      L.intervalFree
    cases hif : L.intervalFree with
    | false => simp
    | true =>
      have h3 : ((rest2 L free).drop L.numFreeParams).length = 1 := by
        have hx := hr2
        rw [hif] at hx
        simp at hx
        rw [List.length_drop, hx]
        omega
      cases h4 : (rest2 L free).drop L.numFreeParams with
      | nil => rw [h4] at h3; simp at h3
      | cons a tl => simp

theorem parse_free_shapes_witness :
    (([1, 2, 3, 4, 5, 6] : List ℚ).length = (Layout.mk 1 1 1 2 true).num_free) ∧
    ((parse_free (Layout.mk 1 1 1 2 true) [1, 2, 3, 4, 5, 6]).states.length = 1 ∧
    (∀ s ∈ (parse_free (Layout.mk 1 1 1 2 true) [1, 2, 3, 4, 5, 6]).states,
      s.length = 2) ∧
    (parse_free (Layout.mk 1 1 1 2 true) [1, 2, 3, 4, 5, 6]).uspec.length = 1 ∧
    (∀ s ∈ (parse_free (Layout.mk 1 1 1 2 true) [1, 2, 3, 4, 5, 6]).uspec,
      s.length = 2) ∧
    (parse_free (Layout.mk 1 1 1 2 true) [1, 2, 3, 4, 5, 6]).params.length = 1 ∧
    (parse_free (Layout.mk 1 1 1 2 true) [1, 2, 3, 4, 5, 6]).interval.isSome =
      true) :=
  ⟨by decide, parse_free_shapes (Layout.mk 1 1 1 2 true) [1, 2, 3, 4, 5, 6]
    (by decide)⟩

/-- C10: ordering of the flat free vector: the first `num_states * N` entries
are the state trajectories in declared order, each a contiguous block of N
values (the state matrix transposed and flattened); next come the unknown
specified trajectories; in a fixed-interval problem the last
`num_free_parameters` entries are the free parameters; in a variable-interval
problem the free node interval is the very last element. -/
theorem free_vector_ordering (L : Layout) (s u : List (List ℚ)) (p : List ℚ)
    (i : Option ℚ) (h : ValidInput L s u p i) :
    (build s u p i).take (L.numStates * L.numNodes) = s.flatten ∧
    ((build s u p i).drop (L.numStates * L.numNodes)).take
      (L.numUnknownSpec * L.numNodes) = u.flatten ∧
    (L.intervalFree = false →
      (build s u p i).drop ((build s u p i).length - L.numFreeParams) = p) ∧
    (L.intervalFree = true →
      ∃ hv : ℚ, i = some hv ∧ (build s u p i).getLast? = some hv) := by
  obtain ⟨h1, h2, h3, h4, h5, h6⟩ := h
  have hsl : s.flatten.length = L.numStates * L.numNodes := by
    rw [flatten_length s L.numNodes h2, h1]
  have hul : u.flatten.length = L.numUnknownSpec * L.numNodes := by
    rw [flatten_length u L.numNodes h4, h3]
  refine ⟨?_, ?_, ?_, ?_⟩
  · rw [build_eq_append, ← hsl, List.take_left]
  · have hx : (build s u p i).drop (L.numStates * L.numNodes) =
        u.flatten ++ (p ++ i.toList) := rest1_build L s u p i h1 h2
    rw [hx, ← hul, List.take_left]
  · intro hif
    have hnone : i = none := by
      cases i with
      | none => rfl
      | some a => rw [hif] at h6; simp at h6
    have hb : build s u p i = (s.flatten ++ u.flatten) ++ p := by
      rw [hnone]; simp [build]
    have hlen : (build s u p i).length - L.numFreeParams =
        (s.flatten ++ u.flatten).length := by
      rw [hb]
      simp only [List.length_append]
      omega
    rw [hlen, hb, List.drop_left]
  · intro hif
    cases i with
    | none => rw [hif] at h6; simp at h6
    | some a =>
      refine ⟨a, rfl, ?_⟩
      have hb : build s u p (some a) =
          (s.flatten ++ (u.flatten ++ p)) ++ [a] := by
        simp [build]
      rw [hb, List.getLast?_concat]

theorem free_vector_ordering_witness :
    (build [[1, 2]] [[3, 4]] [5] (some 6)).take
      ((Layout.mk 1 1 1 2 true).numStates * (Layout.mk 1 1 1 2 true).numNodes) =
      ([[1, 2]] : List (List ℚ)).flatten ∧
    ((build [[1, 2]] [[3, 4]] [5] (some 6)).drop
      ((Layout.mk 1 1 1 2 true).numStates *
        (Layout.mk 1 1 1 2 true).numNodes)).take
      ((Layout.mk 1 1 1 2 true).numUnknownSpec *
        (Layout.mk 1 1 1 2 true).numNodes) = ([[3, 4]] : List (List ℚ)).flatten ∧
    ((Layout.mk 1 1 1 2 true).intervalFree = false →
      (build [[1, 2]] [[3, 4]] [5] (some 6)).drop
        ((build [[1, 2]] [[3, 4]] [5] (some 6)).length -
          (Layout.mk 1 1 1 2 true).numFreeParams) = [5]) ∧
    ((Layout.mk 1 1 1 2 true).intervalFree = true →
      ∃ hv : ℚ, (some (6 : ℚ)) = some hv ∧
        (build [[1, 2]] [[3, 4]] [5] (some 6)).getLast? = some hv) :=
  free_vector_ordering (Layout.mk 1 1 1 2 true) [[1, 2]] [[3, 4]] [5] (some 6)
    (by decide)

/-- C5: a `Problem` constructed without specifying an integration method uses
the midpoint collocation scheme: its defect equations are
`x_{i+1} - x_i - h * f((x_i+x_{i+1})/2, (r_i+r_{i+1})/2, p, (t_i+t_{i+1})/2)`,
one per consecutive node pair. -/
theorem default_integration_method_is_midpoint (obj : List ℚ → ℚ)
    (grad : List ℚ → List ℚ) (eom : List ℚ → List ℚ → List ℚ → ℚ → List ℚ)
    (L : Layout) (hstep : ℚ) (p : List ℚ) (x r : Nat → List ℚ) (t : Nat → ℚ) :
    (mkProblem obj grad eom L hstep).integrationMethod =
      IntegrationMethod.midpoint ∧
    (mkProblem obj grad eom L hstep).defects p x r t =
      (List.range (L.numNodes - 1)).map (fun i =>
        vsub (vsub (x (i + 1)) (x i))
          (smul hstep (eom (smul (1 / 2) (vadd (x i) (x (i + 1))))
            (smul (1 / 2) (vadd (r i) (r (i + 1)))) p
            ((t i + t (i + 1)) / 2)))) :=
  ⟨rfl, rfl⟩

/-- C8: the discretization produces a defect constraint vector with one
equation per state per consecutive node pair — `(N - 1)` blocks whose flat
length is `(N - 1) * num_states` — and at a trajectory satisfying the
discretized dynamics every defect entry is exactly zero. -/
theorem defect_constraint_vector (m : IntegrationMethod)
    (f : List ℚ → List ℚ → List ℚ → ℚ → List ℚ) (hstep : ℚ) (p : List ℚ)
    (x r : Nat → List ℚ) (t : Nat → ℚ) (N ns : Nat)
    (hx : ∀ i, (x i).length = ns)
    (hf : ∀ a b c d, (f a b c d).length = ns)
    (hfeas : FeasibleTraj m f hstep p x r t N) :
    (defectVector m f hstep p x r t N).length = N - 1 ∧
    (defectVector m f hstep p x r t N).flatten.length = (N - 1) * ns ∧
    ∀ d ∈ defectVector m f hstep p x r t N, d = List.replicate ns 0 := by
  have hlen : ∀ d ∈ defectVector m f hstep p x r t N, d.length = ns := by
    intro d hd
    obtain ⟨i, _, rfl⟩ := List.mem_map.mp hd
    rw [defectAt, length_vsub, length_vsub, length_smul,
      length_schemeRHS m f p x r t i ns hf, hx, hx]
    simp
  refine ⟨by simp [defectVector], ?_, ?_⟩
  · rw [flatten_length _ ns hlen]
    simp [defectVector]
  · intro d hd
    obtain ⟨i, hi, rfl⟩ := List.mem_map.mp hd
    rw [List.mem_range] at hi
    have hiN : i + 1 < N := by omega
    have hrhs : (schemeRHS m f p x r t i).length = ns :=
      length_schemeRHS m f p x r t i ns hf
    have hl : (x i).length = (smul hstep (schemeRHS m f p x r t i)).length := by
      rw [length_smul, hrhs, hx]
    rw [defectAt, hfeas i hiN, vsub_vadd_cancel _ _ hl, vsub_self_eq_zero,
      length_smul, hrhs]

theorem defect_constraint_vector_witness :
    (defectVector IntegrationMethod.midpoint (fun _ _ _ _ => [0]) 1 []
      (fun _ => [0]) (fun _ => []) (fun _ => 0) 2).length = 2 - 1 ∧
    (defectVector IntegrationMethod.midpoint (fun _ _ _ _ => [0]) 1 []
      (fun _ => [0]) (fun _ => []) (fun _ => 0) 2).flatten.length =
      (2 - 1) * 1 ∧
    ∀ d ∈ defectVector IntegrationMethod.midpoint (fun _ _ _ _ => [0]) 1 []
      (fun _ => [0]) (fun _ => []) (fun _ => 0) 2, d = List.replicate 1 0 :=
  defect_constraint_vector IntegrationMethod.midpoint (fun _ _ _ _ => [0]) 1 []
    (fun _ => [0]) (fun _ => []) (fun _ => 0) 2 1 (fun _ => rfl)
    (fun _ _ _ _ => rfl)
    (by intro i _; simp [schemeRHS, vadd, smul])

/-- C6: the per-node numeric values of every known trajectory are substituted
as constants into constraint expressions: evaluating the substituted
expression no longer consults the known-trajectory map at all (any map gives
the original value), and no known-trajectory symbol survives the substitution
— known trajectories are never read from the free vector, whose only entries
are states, unknown specified trajectories, free parameters and the optional
free interval. -/
theorem known_trajectory_substitution (L : Layout) (free : List ℚ)
    (known knownAlt : Nat → Nat → ℚ) (e : Expr) :
    Expr.eval L free knownAlt (substKnown known e) =
      Expr.eval L free known e ∧
    hasKnownTraj (substKnown known e) = false := by
  induction e with
  | const c => exact ⟨rfl, rfl⟩
  | stateVar s n => exact ⟨rfl, rfl⟩
  | unknownSpecVar u n => exact ⟨rfl, rfl⟩
  | knownTrajVar k n => exact ⟨rfl, rfl⟩
  | paramVar j => exact ⟨rfl, rfl⟩
  | intervalVar => exact ⟨rfl, rfl⟩
  | add a b iha ihb =>
    exact ⟨by simp [substKnown, Expr.eval, iha.1, ihb.1],
      by simp [substKnown, hasKnownTraj, iha.2, ihb.2]⟩
  | mul a b iha ihb =>
    exact ⟨by simp [substKnown, Expr.eval, iha.1, ihb.1],
      by simp [substKnown, hasKnownTraj, iha.2, ihb.2]⟩
  | neg a iha =>
    exact ⟨by simp [substKnown, Expr.eval, iha.1],
      by simp [substKnown, hasKnownTraj, iha.2]⟩

/-- C7: a caller-supplied gradient whose output length differs from the
free-vector length makes checked construction fail with a
`ConfigurationError` (so no `Problem` value exists to solve), while the
example scripts' `obj_grad` — which allocates `np.zeros_like(free)` and hence
always returns a vector of the free length — passes the validation on the
park2004 layout. -/
theorem gradient_length_validated_at_construction (obj : List ℚ → ℚ)
    (grad : List ℚ → List ℚ) (eom : List ℚ → List ℚ → List ℚ → ℚ → List ℚ)
    (L : Layout) (hstep : ℚ) (m : IntegrationMethod) (interval : ℚ) (N : Nat)
    (x_meas_vec : List ℚ)
    (hbad : (grad (List.replicate L.num_free 0)).length ≠ L.num_free)
    (hmeas : x_meas_vec.length = 4 * N) :
    mkProblemChecked obj grad eom L hstep m =
      Except.error ConfigurationError.gradientLengthMismatch ∧
    ∃ P : Problem,
      mkProblemChecked obj (obj_grad interval N x_meas_vec) eom
        (park2004Layout N) hstep m = Except.ok P := by
  constructor
  · rw [mkProblemChecked, if_neg hbad]
  · have hnf : (park2004Layout N).num_free = 4 * N + 8 := by
      simp [park2004Layout, Layout.num_free]
    have hlen : (obj_grad interval N x_meas_vec
        (List.replicate (park2004Layout N).num_free 0)).length =
        (park2004Layout N).num_free := by
      rw [hnf, obj_grad, List.length_append, List.length_zipWith,
        List.length_take, List.length_replicate, List.length_replicate, hmeas]
      omega
    exact ⟨_, by rw [mkProblemChecked, if_pos hlen]⟩

theorem gradient_length_validated_at_construction_witness :
    mkProblemChecked (fun _ => 0) (fun _ => []) (fun _ _ _ _ => [])
      (Layout.mk 1 0 0 1 false) 1 IntegrationMethod.midpoint =
      Except.error ConfigurationError.gradientLengthMismatch ∧
    ∃ P : Problem,
      mkProblemChecked (fun _ => 0) (obj_grad 1 1 [0, 0, 0, 0])
        (fun _ _ _ _ => []) (park2004Layout 1) 1 IntegrationMethod.midpoint =
        Except.ok P :=
  gradient_length_validated_at_construction (fun _ => 0) (fun _ => [])
    (fun _ _ _ _ => []) (Layout.mk 1 0 0 1 false) 1 IntegrationMethod.midpoint
    1 1 [0, 0, 0, 0] (by decide) (by decide)

/-- C4: when the backend fails to converge (any status other than converged,
with all evaluations finite), `Problem.solve` does not raise: it returns the
best iterate found together with the diagnostics record whose status the
caller must check — the best iterate is never discarded. -/
theorem solve_returns_best_iterate_on_nonconvergence (P : Problem)
    (B : Backend) (guess : List ℚ)
    (hfin : B.nonFiniteAt guess = none)
    (hnc : (B.run guess).status ≠ SolverStatus.converged) :
    P.solve B guess = Except.ok ((B.run guess).bestIterate, B.run guess) := by
  unfold Problem.solve
  rw [hfin]

theorem solve_returns_best_iterate_on_nonconvergence_witness :
    (mkProblem (fun _ => 0) (fun g => g) (fun _ _ _ _ => [])
        (park2004Layout 1) 1).solve
      (Backend.mk (fun g => SolverOutput.mk g SolverStatus.iterationLimit 5 0 0 [])
        (fun _ => none)) [1] =
      Except.ok ([1],
        SolverOutput.mk [1] SolverStatus.iterationLimit 5 0 0 []) :=
  solve_returns_best_iterate_on_nonconvergence
    (mkProblem (fun _ => 0) (fun g => g) (fun _ _ _ _ => [])
      (park2004Layout 1) 1)
    (Backend.mk (fun g => SolverOutput.mk g SolverStatus.iterationLimit 5 0 0 [])
      (fun _ => none)) [1] rfl (by decide)

/-- C9: line 621 of `src/park2004.py` — the middle of the three consecutive
`initial_guess` assignments — has strictly more closing than opening
parentheses (net count −1), so the script is not syntactically valid Python
and never reaches `prob.solve`; under sequential assignment semantics (as in
the well-formed gallery script) the earlier assignments are overwritten and
the value left for `prob.solve` is the final one,
`np.hstack((x_meas_vec, np.zeros(8)))`. -/
theorem initial_guess_assignments (g1 g2 x_meas_vec : List ℚ) :
    parenNet park2004Line621.toList = -1 ∧
    runAssignments none [g1, g2, x_meas_vec ++ List.replicate 8 0] =
      some (x_meas_vec ++ List.replicate 8 0) := by
  constructor
  · decide
  · rfl

end Opty
